import Mathlib

/-!
Verification development for the antigravity-claude-proxy dispatch engine.

The definitions below are shallow embeddings of the JavaScript source:

* `src/cloudcode/message-handler.js` (non-streaming dispatcher `sendMessage`)
* `src/cloudcode/streaming-handler.js` (streaming dispatcher `sendMessageStream`
  and `emitEmptyResponseFallback`)
* `src/account-manager/strategies/hybrid-strategy.js` (`HybridStrategy`)
* `src/account-manager/strategies/trackers/quota-tracker.js` (`QuotaTracker`)
* `src/cloudcode/count-tokens.js` (`countTokens` and helpers)

Times are modelled as naturals (milliseconds), JavaScript numbers used in
scoring as rationals, and JavaScript's falsy coercions on possibly-null
numbers (`x || d`, `x && p`) are made explicit via `jsOr` / `jsTruthy`.
-/

namespace Proxy

/-! ## String utilities (JavaScript `String.prototype.includes` on lowercased text) -/

/-- Model of JavaScript `s.includes(pat)` on char lists (`containsSub s pat`):
`pat` occurs as a contiguous run inside `s`. -/
def containsSub (s pat : List Char) : Bool :=
  (List.range (s.length + 1)).any (fun i => ((s.drop i).take pat.length) == pat)

/-- JavaScript `s.toLowerCase().includes(pat)` for a string `s` and a pattern
`pat`, lowercasing characterwise (the source's patterns are ASCII). -/
def lowerIncludes (s pat : String) : Bool :=
  containsSub (s.toList.map Char.toLower) pat.toList

/-! ## Tunable constants.

Modelled from the spec: `src/constants.js` is not part of the provided
sources; the values are the defaults given in the spec's tunable-constants
table (§6), which the claims also state explicitly. -/

def MAX_RETRIES : Nat := 3
def MAX_EMPTY_RESPONSE_RETRIES : Nat := 3
def MAX_WAIT_BEFORE_ERROR_MS : Nat := 120000
def DEFAULT_COOLDOWN_MS : Nat := 10000
def RATE_LIMIT_DEDUP_WINDOW_MS : Nat := 2000
def MAX_CONSECUTIVE_FAILURES : Nat := 3
def EXTENDED_COOLDOWN_MS : Nat := 300000
def CAPACITY_RETRY_DELAY_MS : Nat := 2000
def MAX_CAPACITY_RETRIES : Nat := 3

/-! ## JavaScript truthiness on a nullable number (`resetMs`)

`parseResetTime` returns a number or `null`; the dispatchers only ever use it
through `resetMs || d` and `resetMs && resetMs > k`, under which the number
`0` and `null` are indistinguishable. -/

/-- JavaScript `x || d` for a nullable number `x`. -/
def jsOr (x : Option Nat) (d : Nat) : Nat :=
  match x with
  | some r => if r = 0 then d else r
  | none => d

/-- JavaScript truthiness of a nullable number. -/
def jsTruthy (x : Option Nat) : Bool :=
  match x with
  | some r => decide (r ≠ 0)
  | none => false

/-! ## Classification predicates (message-handler.js lines 74-96,
identical copies in streaming-handler.js lines 73-94) -/

/-- Source `isPermanentAuthFailure`: lowercased error text contains
one of the permanent-failure markers. -/
def isPermanentAuthFailure (errorText : String) : Bool :=
  lowerIncludes errorText "invalid_grant" ||
  lowerIncludes errorText "token revoked" ||
  lowerIncludes errorText "token has been expired or revoked" ||
  lowerIncludes errorText "token_revoked" ||
  lowerIncludes errorText "invalid_client" ||
  lowerIncludes errorText "credentials are invalid"

/-- Source `isModelCapacityExhausted`: lowercased error text contains
one of the capacity markers. -/
def isModelCapacityExhausted (errorText : String) : Bool :=
  lowerIncludes errorText "model_capacity_exhausted" ||
  lowerIncludes errorText "capacity_exhausted" ||
  lowerIncludes errorText "model is currently overloaded" ||
  lowerIncludes errorText "service temporarily unavailable"

/-! ## The 429 branch of the endpoint loop

Shallow embedding of message-handler.js lines 231-277 (the streaming handler's
lines 226-272 are textually identical).  One value of `Step429Out` captures
everything a single 429 response does: whether the loop stays on the same
endpoint (after a sleep) or throws to switch accounts, the updated
`retriedOnce` / `capacityRetryCount` scratch state, whether
`recordRateLimitTimestamp(model)` ran, and any `markRateLimited` duration. -/

inductive ErrKind where
  | rateLimitedDedup
  | quotaExhausted
  | rateLimited
  | authInvalidPermanent
  deriving Repr, DecidableEq

inductive After429 where
  | retrySame (sleepMs : Nat)
  | throwSwitch (e : ErrKind)
  deriving Repr, DecidableEq

structure Step429Out where
  next : After429
  retriedOnce : Bool
  capacityRetryCount : Nat
  recordedDedup : Bool
  marked : Option Nat
  deriving Repr, DecidableEq

/-- The body of `if (response.status === 429) { ... }` in the endpoint loop. -/
def handle429 (errorText : String) (dedupSkip : Bool) (retriedOnce : Bool)
    (resetMs : Option Nat) (capacityRetryCount : Nat) : Step429Out :=
  if isModelCapacityExhausted errorText && decide (capacityRetryCount < MAX_CAPACITY_RETRIES) then
    { next := .retrySame (jsOr resetMs CAPACITY_RETRY_DELAY_MS)
      retriedOnce := retriedOnce
      capacityRetryCount := capacityRetryCount + 1
      recordedDedup := false
      marked := none }
  else if dedupSkip then
    { next := .throwSwitch .rateLimitedDedup
      retriedOnce := retriedOnce
      capacityRetryCount := capacityRetryCount
      recordedDedup := false
      marked := some (jsOr resetMs DEFAULT_COOLDOWN_MS) }
  else if jsTruthy resetMs && decide (DEFAULT_COOLDOWN_MS < (resetMs.getD 0)) then
    { next := .throwSwitch .quotaExhausted
      retriedOnce := retriedOnce
      capacityRetryCount := capacityRetryCount
      recordedDedup := false
      marked := some (resetMs.getD 0) }
  else if !retriedOnce then
    { next := .retrySame (jsOr resetMs DEFAULT_COOLDOWN_MS)
      retriedOnce := true
      capacityRetryCount := capacityRetryCount
      recordedDedup := true
      marked := none }
  else
    { next := .throwSwitch .rateLimited
      retriedOnce := retriedOnce
      capacityRetryCount := capacityRetryCount
      recordedDedup := false
      marked := some (jsOr resetMs DEFAULT_COOLDOWN_MS) }

/-! ## The endpoint loop (message-handler.js lines 193-319)

A script of upstream HTTP responses drives the loop; each fetch consumes one
script entry.  The state records the per-account scratch variables together
with the observable effects: sleeps performed (in order), `markRateLimited`
durations, dedup recordings, and whether `markInvalid` ran.  On `ok` the
source parses/translates the body, clears the dedup timestamp and notifies
the strategy, then returns. -/

inductive UpstreamResp where
  | ok
  | http401 (errorText : String)
  | http429 (errorText : String) (resetMs : Option Nat)
  | httpOther (status : Nat) (errorText : String)
  deriving Repr, DecidableEq

structure LoopSt where
  retriedOnce : Bool
  capacityRetryCount : Nat
  endpointIndex : Nat
  sleeps : List Nat
  marks : List Nat
  dedupRecords : Nat
  markedInvalid : Bool
  lastErrorSet : Bool
  deriving Repr, DecidableEq

def initLoopSt : LoopSt :=
  { retriedOnce := false, capacityRetryCount := 0, endpointIndex := 0,
    sleeps := [], marks := [], dedupRecords := 0,
    markedInvalid := false, lastErrorSet := false }

inductive LoopOutcome where
  | success (st : LoopSt)
  | thrown (e : ErrKind) (st : LoopSt)
  | endpointsExhausted (st : LoopSt)
  | outOfScript (st : LoopSt)
  deriving Repr, DecidableEq

/-- Loop `while (endpointIndex < ANTIGRAVITY_ENDPOINT_FALLBACKS.length)` from the
source, with `numEndpoints` the roster length and `dedupSkip` the value of
`shouldSkipRetryDueToDedup(model)` at the 429 branches. -/
def runEndpointLoop (numEndpoints : Nat) (dedupSkip : Bool) :
    List UpstreamResp → LoopSt → LoopOutcome
  | [], st =>
    if st.endpointIndex < numEndpoints then .outOfScript st else .endpointsExhausted st
  | resp :: rest, st =>
    if st.endpointIndex < numEndpoints then
      match resp with
      | .ok => .success st
      | .http401 t =>
        if isPermanentAuthFailure t then
          .thrown .authInvalidPermanent { st with markedInvalid := true }
        else
          runEndpointLoop numEndpoints dedupSkip rest
            { st with endpointIndex := st.endpointIndex + 1 }
      | .http429 t r =>
        let out := handle429 t dedupSkip st.retriedOnce r st.capacityRetryCount
        match out.next with
        | .retrySame s =>
          runEndpointLoop numEndpoints dedupSkip rest
            { st with retriedOnce := out.retriedOnce,
                      capacityRetryCount := out.capacityRetryCount,
                      sleeps := st.sleeps ++ [s],
                      dedupRecords := st.dedupRecords + (if out.recordedDedup then 1 else 0) }
        | .throwSwitch e =>
          .thrown e { st with retriedOnce := out.retriedOnce,
                              capacityRetryCount := out.capacityRetryCount,
                              marks := st.marks ++ out.marked.toList }
      | .httpOther status _ =>
        let st1 := if 500 ≤ status then { st with sleeps := st.sleeps ++ [1000] } else st
        runEndpointLoop numEndpoints dedupSkip rest
          { st1 with endpointIndex := st1.endpointIndex + 1, lastErrorSet := true }
    else .endpointsExhausted st

/-! ## The no-accounts branch of the outer loop
(message-handler.js lines 137-167; streaming-handler.js lines 134-165 are
textually identical except that the recursion is a `yield*`). -/

inductive NoAccountsStep where
  | fallbackRecurse (fallbackModel : String)
  | throwResourceExhausted (model : String) (minWaitMs resetTime : Nat)
  | sleepRetry (sleepMs : Nat)
  | throwNoAccounts
  deriving Repr, DecidableEq

/-- The `availableAccounts.length === 0` branch: `fallbackModel` is the value
of `getFallbackModel(model)` and `now` is `Date.now()` at the branch. -/
def handleNoAccounts (model : String) (allRateLimited : Bool) (minWaitMs : Nat)
    (fallbackEnabled : Bool) (fallbackModel : Option String) (now : Nat) : NoAccountsStep :=
  if allRateLimited then
    if MAX_WAIT_BEFORE_ERROR_MS < minWaitMs then
      if fallbackEnabled then
        match fallbackModel with
        | some fm => .fallbackRecurse fm
        | none => .throwResourceExhausted model minWaitMs (now + minWaitMs)
      else .throwResourceExhausted model minWaitMs (now + minWaitMs)
    else .sleepRetry (minWaitMs + 500)
  else .throwNoAccounts

/-! ## The outer retry loop (both dispatchers)

`sendMessage` (message-handler.js lines 121-388) and `sendMessageStream`
(streaming-handler.js lines 119-448) share this control flow; the streaming
dispatcher adds the `endpointEmptyFallback` outcome.  What a given iteration
observes from account selection, the upstream and the catch-classification is
abstracted as an `IterEvent` oracle indexed by the attempt number. -/

inductive IterEvent where
  | noAccounts (allRateLimited : Bool) (minWaitMs : Nat)
  | selectWait (waitMs : Nat)
  | selectNone
  | endpointReturn
  | endpointEmptyFallback
  | caughtContinue
  | rethrow (msg : String)

inductive DispatchEnd where
  | response
  | emptyFallbackStream
  | resourceExhausted (model : String) (waitMs resetTime : Nat)
  | noAccountsErr
  | maxRetriesExceeded
  | thrownOther (msg : String)
  deriving Repr, DecidableEq

inductive OuterStep where
  | continueLoop (sleepMs : Option Nat)
  | done (r : DispatchEnd)
  | recurseFallback (fm : String)
  deriving Repr, DecidableEq

/-- One iteration of the outer `for (attempt …)` loop, given what the
iteration's event was. -/
def stepIter (model : String) (fallbackEnabled : Bool) (fallbackModel : Option String)
    (now : Nat) : IterEvent → OuterStep
  | .noAccounts arl w =>
    match handleNoAccounts model arl w fallbackEnabled fallbackModel now with
    | .fallbackRecurse fm => .recurseFallback fm
    | .throwResourceExhausted m w' rt => .done (.resourceExhausted m w' rt)
    | .sleepRetry s => .continueLoop (some s)
    | .throwNoAccounts => .done .noAccountsErr
  | .selectWait w => .continueLoop (some (w + 500))
  | .selectNone => .continueLoop none
  | .endpointReturn => .done .response
  | .endpointEmptyFallback => .done .emptyFallbackStream
  | .caughtContinue => .continueLoop none
  | .rethrow msg => .done (.thrownOther msg)

inductive LoopEnd where
  | finished (r : DispatchEnd) (itersUsed : Nat)
  | recurse (fm : String) (itersUsed : Nat)
  | exhausted (itersUsed : Nat)
  deriving Repr, DecidableEq

/-- Source `maxAttempts = Math.max(MAX_RETRIES, accountManager.getAccountCount() + 1)`. -/
def maxAttempts (accountCount : Nat) : Nat := max MAX_RETRIES (accountCount + 1)

/-- The outer `for (let attempt = 0; attempt < maxAttempts; attempt++)` loop,
run with `fuel` remaining iterations starting at index `attempt`. -/
def runOuter (model : String) (fallbackEnabled : Bool) (fallbackModel : Option String)
    (now : Nat) (events : Nat → IterEvent) : Nat → Nat → LoopEnd
  | 0, attempt => .exhausted attempt
  | fuel + 1, attempt =>
    match stepIter model fallbackEnabled fallbackModel now (events attempt) with
    | .continueLoop _ => runOuter model fallbackEnabled fallbackModel now events fuel (attempt + 1)
    | .done r => .finished r attempt
    | .recurseFallback fm => .recurse fm attempt

def itersOf : LoopEnd → Nat
  | .finished _ a => a
  | .recurse _ a => a
  | .exhausted a => a

inductive CallResult where
  | direct (r : DispatchEnd)
  | viaFallback (fm : String) (r : DispatchEnd)
  deriving Repr, DecidableEq

/-- How the post-loop code finishes an invocation with `fallbackEnabled=false`:
loop exhaustion becomes `Max retries exceeded` (a `.recurse` cannot occur
there, see `runOuter_false_no_recurse`). -/
def finishInner : LoopEnd → DispatchEnd
  | .finished r _ => r
  | .exhausted _ => .maxRetriesExceeded
  | .recurse _ _ => .maxRetriesExceeded

/-- A whole call to a dispatcher: the outer loop, the in-loop fallback
recursion, and the post-loop fallback (lines 377-387).  `ev1` drives the
original model's loop, `ev2` the fallback model's. -/
def dispatch (model : String) (fallbackModel : Option String) (now : Nat)
    (ev1 ev2 : Nat → IterEvent) (accountCount : Nat) (fallbackEnabled : Bool) : CallResult :=
  match runOuter model fallbackEnabled fallbackModel now ev1 (maxAttempts accountCount) 0 with
  | .finished r _ => .direct r
  | .recurse fm _ =>
    .viaFallback fm (finishInner (runOuter fm false fallbackModel now ev2 (maxAttempts accountCount) 0))
  | .exhausted _ =>
    if fallbackEnabled then
      match fallbackModel with
      | some fm =>
        .viaFallback fm (finishInner (runOuter fm false fallbackModel now ev2 (maxAttempts accountCount) 0))
      | none => .direct .maxRetriesExceeded
    else .direct .maxRetriesExceeded

/-! ## Data model (spec §3, account shape used by the strategies) -/

structure RateLimitEntry where
  isRateLimited : Bool
  resetTime : Nat
  deriving Repr, DecidableEq

/-- Entry `account.quota.models[modelId]`; `remainingFraction` is `none` when the
field is absent or not a number (the source checks `typeof fraction === 'number'`). -/
structure QuotaModelEntry where
  remainingFraction : Option ℚ
  deriving Repr, DecidableEq

/-- Data `account.quota`; a falsy (absent) `lastChecked` is modelled as `0`,
matching the source's `if (!account?.quota?.lastChecked)` guard. -/
structure QuotaData where
  lastChecked : Nat
  models : List (String × QuotaModelEntry)
  deriving Repr, DecidableEq

structure Account where
  email : String
  enabled : Bool
  isInvalid : Bool
  lastUsed : Nat
  modelRateLimits : List (String × RateLimitEntry)
  quota : Option QuotaData
  deriving Repr, DecidableEq

/-- Association-map update: JavaScript `Map.set` as observed through `get`. -/
def setA {α : Type} (st : List (String × α)) (k : String) (v : α) : List (String × α) :=
  (k, v) :: st.eraseP (fun p => p.1 == k)

/-! ## Quota Tracker (quota-tracker.js, default configuration lines 10-15) -/

structure QuotaConfig where
  lowThreshold : ℚ
  criticalThreshold : ℚ
  staleMs : Nat
  unknownScore : ℚ
  deriving Repr, DecidableEq

def defaultQuotaConfig : QuotaConfig :=
  { lowThreshold := 1/10, criticalThreshold := 1/20, staleMs := 300000, unknownScore := 50 }

namespace QuotaTracker

/-- Source quota-tracker.js lines 34-38. -/
def getQuotaFraction (a : Account) (m : String) : Option ℚ :=
  match a.quota with
  | none => none
  | some q =>
    match q.models.lookup m with
    | some e => e.remainingFraction
    | none => none

/-- Source quota-tracker.js lines 45-48 (`now` is `Date.now()`). -/
def isQuotaFresh (cfg : QuotaConfig) (a : Account) (now : Nat) : Bool :=
  match a.quota with
  | none => false
  | some q =>
    if q.lastChecked = 0 then false
    else decide ((now : ℤ) - q.lastChecked < cfg.staleMs)

/-- Source quota-tracker.js lines 56-63. -/
def isQuotaCritical (cfg : QuotaConfig) (a : Account) (m : String) (now : Nat) : Bool :=
  match getQuotaFraction a m with
  | none => false
  | some f =>
    if !isQuotaFresh cfg a now then false
    else decide (f ≤ cfg.criticalThreshold)

/-- Source quota-tracker.js lines 71-75 (no freshness check in the source). -/
def isQuotaLow (cfg : QuotaConfig) (a : Account) (m : String) : Bool :=
  match getQuotaFraction a m with
  | none => false
  | some f => decide (f ≤ cfg.lowThreshold) && decide (cfg.criticalThreshold < f)

/-- Source quota-tracker.js lines 84-101. -/
def getScore (cfg : QuotaConfig) (a : Account) (m : String) (now : Nat) : ℚ :=
  match getQuotaFraction a m with
  | none => cfg.unknownScore
  | some f =>
    let score := f * 100
    if !isQuotaFresh cfg a now then score * (9/10) else score

end QuotaTracker

/-! ## Health tracker and token bucket.

Modelled from the spec: `trackers/health-tracker.js` and
`trackers/token-bucket-tracker.js` are not part of the provided sources.
§4.1/§4.2 of the spec and the unit tests in the strategy test suite fix the
behaviour used here: lazily created per-email state with defaults
`initial = 70`, `minUsable = 50` for health and `initialTokens = 50`,
`maxTokens = 50` for the bucket; `consume` decrements when at least one token
is held; `refund` increments capped at `maxTokens`. -/

abbrev HealthMap := List (String × ℚ)
abbrev BucketMap := List (String × Nat)

namespace HealthTracker

def getScore (st : HealthMap) (email : String) : ℚ := (st.lookup email).getD 70

def isUsable (st : HealthMap) (email : String) : Bool := decide (50 ≤ getScore st email)

end HealthTracker

namespace TokenBucket

def getMaxTokens : Nat := 50

def getTokens (st : BucketMap) (email : String) : Nat := (st.lookup email).getD 50

def hasTokens (st : BucketMap) (email : String) : Bool := decide (1 ≤ getTokens st email)

def consume (st : BucketMap) (email : String) : BucketMap × Bool :=
  let t := getTokens st email
  if 1 ≤ t then (setA st email (t - 1), true) else (st, false)

def refund (st : BucketMap) (email : String) : BucketMap :=
  setA st email (min (getTokens st email + 1) getMaxTokens)

end TokenBucket

/-- Base usability filter.

Modelled from the spec: `strategies/base-strategy.js` is not part of the
provided sources.  Spec §3's Account invariant (and the base-strategy unit
tests) fix it: eligible iff `enabled ∧ ¬isInvalid` and the model's rate-limit
entry is absent, cleared, or expired (`now ≥ resetTime` usable). -/
def isAccountUsable (a : Account) (m : String) (now : Nat) : Bool :=
  a.enabled && !a.isInvalid &&
    (match a.modelRateLimits.lookup m with
     | none => true
     | some e => !(e.isRateLimited && decide (now < e.resetTime)))

/-! ## Hybrid strategy (hybrid-strategy.js) -/

/-- The per-account filter of `#getCandidates` (lines 136-159 with the quota
check, lines 166-171 without). -/
def hybridFilter (health : HealthMap) (bucket : BucketMap) (m : String) (now : Nat)
    (useQuotaFilter : Bool) (a : Account) : Bool :=
  isAccountUsable a m now &&
  HealthTracker.isUsable health a.email &&
  TokenBucket.hasTokens bucket a.email &&
  (!useQuotaFilter || !QuotaTracker.isQuotaCritical defaultQuotaConfig a m now)

/-- Method `#getCandidates` (hybrid-strategy.js lines 133-179): indexed filter with
the quota-critical exclusion, falling back to the same filter without it when
empty (and to the empty list when the fallback is empty too). -/
def getCandidates (accounts : List Account) (m : String) (health : HealthMap)
    (bucket : BucketMap) (now : Nat) : List (Nat × Account) :=
  if (accounts.enum.filter (fun p => hybridFilter health bucket m now true p.2)).isEmpty then
    if (accounts.enum.filter (fun p => hybridFilter health bucket m now false p.2)).isEmpty then
      accounts.enum.filter (fun p => hybridFilter health bucket m now true p.2)
    else accounts.enum.filter (fun p => hybridFilter health bucket m now false p.2)
  else accounts.enum.filter (fun p => hybridFilter health bucket m now true p.2)

/-- Method `#calculateScore` (hybrid-strategy.js lines 185-210) with the default
weights `{health: 2, tokens: 5, quota: 3, lru: 0.1}`. -/
def calculateScore (health : HealthMap) (bucket : BucketMap) (a : Account)
    (m : String) (now : Nat) : ℚ :=
  let healthComponent := HealthTracker.getScore health a.email * 2
  let tokenFrac : ℚ := (TokenBucket.getTokens bucket a.email : ℚ) / (TokenBucket.getMaxTokens : ℚ)
  let tokenComponent := (tokenFrac * 100) * 5
  let quotaComponent := QuotaTracker.getScore defaultQuotaConfig a m now * 3
  let timeSinceLastUse : ℚ := min ((now : ℚ) - (a.lastUsed : ℚ)) 3600000
  let lruComponent := (timeSinceLastUse / 60000) * (1/10)
  healthComponent + tokenComponent + quotaComponent + lruComponent

structure ScoredCand where
  account : Account
  idx : Nat
  score : ℚ
  deriving Repr, DecidableEq

/-- The fold underlying `scored.sort((a, b) => b.score - a.score)` followed by
`scored[0]`: JavaScript's sort is stable, so the head of the sorted array is
the first element attaining the maximal score; `bestOf` keeps the current
best unless a strictly greater score appears. -/
def bestOf (b : ScoredCand) : List ScoredCand → ScoredCand
  | [] => b
  | c :: cs => bestOf (if b.score < c.score then c else b) cs

def pickBest : List ScoredCand → Option ScoredCand
  | [] => none
  | x :: xs => some (bestOf x xs)

/-- Reference description of "first element attaining the maximal score",
used to state the stable tie-break. -/
def firstMax : List ScoredCand → Option ScoredCand
  | [] => none
  | x :: xs =>
    match firstMax xs with
    | none => some x
    | some c => if x.score < c.score then some c else some x

structure SelectionOut where
  selected : Option (Nat × Account)
  accountsAfter : List Account
  bucketAfter : BucketMap
  waitMs : Nat
  deriving Repr, DecidableEq

/-- The scored candidate list (hybrid-strategy.js lines 76-79). -/
def hybridScored (accounts : List Account) (m : String) (health : HealthMap)
    (bucket : BucketMap) (now : Nat) : List ScoredCand :=
  (getCandidates accounts m health bucket now).map (fun p =>
    { account := p.2, idx := p.1, score := calculateScore health bucket p.2 m now })

/-- Method `HybridStrategy.selectAccount` (hybrid-strategy.js lines 60-98): filter,
score, stable-sort-descending and take the head, stamp `lastUsed := now`, and
consume one token from the winner's bucket. -/
def selectAccount (accounts : List Account) (m : String) (health : HealthMap)
    (bucket : BucketMap) (now : Nat) : SelectionOut :=
  if accounts.isEmpty then
    { selected := none, accountsAfter := accounts, bucketAfter := bucket, waitMs := 0 }
  else
    match pickBest (hybridScored accounts m health bucket now) with
    | none => { selected := none, accountsAfter := accounts, bucketAfter := bucket, waitMs := 0 }
    | some best =>
      { selected := some (best.idx, { best.account with lastUsed := now })
        accountsAfter := accounts.set best.idx { best.account with lastUsed := now }
        bucketAfter := (TokenBucket.consume bucket best.account.email).1
        waitMs := 0 }

/-! ## Streaming empty-response recovery (streaming-handler.js lines 289-365)
and the synthetic fallback stream (lines 455-494) -/

inductive SSEvent where
  | messageStart (id : String) (model : String)
  | contentBlockStart (blockType : String)
  | contentBlockDelta (deltaType : String) (text : String)
  | contentBlockStop
  | messageDelta (stopReason : String)
  | messageStop
  deriving Repr, DecidableEq

def hexDigits : List Char := "0123456789abcdef".toList

def hexDigit (n : Nat) : Char := hexDigits.getD n 'x'

/-- One byte rendered as two lowercase hex characters, as in Node's
`Buffer.toString('hex')`. -/
def byteToHex (b : Fin 256) : List Char := [hexDigit (b.val / 16), hexDigit (b.val % 16)]

/-- Hex rendering `crypto.randomBytes(16).toString('hex')` for a given byte draw. -/
def bytesToHex (bs : List (Fin 256)) : String := ⟨(bs.map byteToHex).flatten⟩

/-- Source `emitEmptyResponseFallback` (streaming-handler.js lines 455-494),
parameterized by the 16 random bytes of the message id.  Each constructor
carries the fields the fallback sets: the id, the block/delta types, the
literal delta text, and the `end_turn` stop reason. -/
def emitEmptyResponseFallback (model : String) (randBytes : List (Fin 256)) : List SSEvent :=
  let messageId := "msg_" ++ bytesToHex randBytes
  [ .messageStart messageId model,
    .contentBlockStart "text",
    .contentBlockDelta "text_delta" "[No response after retries - please try again]",
    .contentBlockStop,
    .messageDelta "end_turn",
    .messageStop ]

/-- What a re-issued POST returns inside the empty-response loop:
`status5xx` carries whether the extra refetch after the 1s sleep was `ok`. -/
inductive RetryFetch where
  | okResp
  | status429 (errorText : String) (resetMs : Option Nat)
  | status401 (errorText : String)
  | status5xx (secondOk : Bool) (status : Nat) (errorText : String)
  | statusOther (status : Nat) (errorText : String)
  deriving Repr, DecidableEq

inductive EmptyEnd where
  | streamed
  | fallbackEmitted (events : List SSEvent)
  | threwRetry429
  | threwAuthPermanent
  | threwAuth401
  | threwRetryFailed (status : Nat)
  deriving Repr, DecidableEq

/-- Observable effects of the empty-response recovery loop: sleeps in order,
raw `markRateLimited` arguments (the source passes `resetMs` unmodified, so a
`null` mark is possible), whether `markInvalid` ran, and how it ended. -/
structure EmptyLoopOut where
  sleeps : List Nat
  marks : List (Option Nat)
  markedInvalid : Bool
  ende : EmptyEnd
  deriving Repr, DecidableEq

/-- The `for (let emptyRetries = 0; emptyRetries <= MAX_EMPTY_RESPONSE_RETRIES; …)`
loop of streaming-handler.js lines 292-365, started at iteration `k`:
`isEmpty j` says whether the `j`-th streaming attempt raised
`EmptyResponseError`, and `refetch j` is the outcome of the POST re-issued
after the `j`-th backoff sleep. -/
def emptyRespLoop (model : String) (randBytes : List (Fin 256))
    (isEmpty : Nat → Bool) (refetch : Nat → RetryFetch) (k : Nat) : EmptyLoopOut :=
  if isEmpty k = false then
    { sleeps := [], marks := [], markedInvalid := false, ende := .streamed }
  else if _h : MAX_EMPTY_RESPONSE_RETRIES ≤ k then
    { sleeps := [], marks := [], markedInvalid := false,
      ende := .fallbackEmitted (emitEmptyResponseFallback model randBytes) }
  else
    let backoff := 500 * 2 ^ k
    match refetch k with
    | .okResp =>
      let rest := emptyRespLoop model randBytes isEmpty refetch (k + 1)
      { rest with sleeps := backoff :: rest.sleeps }
    | .status429 _ r =>
      { sleeps := [backoff], marks := [r], markedInvalid := false, ende := .threwRetry429 }
    | .status401 t =>
      if isPermanentAuthFailure t then
        { sleeps := [backoff], marks := [], markedInvalid := true, ende := .threwAuthPermanent }
      else
        { sleeps := [backoff], marks := [], markedInvalid := false, ende := .threwAuth401 }
    | .status5xx secondOk status _ =>
      if secondOk then
        let rest := emptyRespLoop model randBytes isEmpty refetch (k + 1)
        { rest with sleeps := backoff :: 1000 :: rest.sleeps }
      else
        { sleeps := [backoff, 1000], marks := [], markedInvalid := false,
          ende := .threwRetryFailed status }
    | .statusOther status _ =>
      { sleeps := [backoff], marks := [], markedInvalid := false,
        ende := .threwRetryFailed status }
termination_by MAX_EMPTY_RESPONSE_RETRIES + 1 - k
decreasing_by
  all_goals simp_all [MAX_EMPTY_RESPONSE_RETRIES]
  all_goals omega

/-! ## Token counting (count-tokens.js) -/

/-- Content blocks as `hasComplexContent`, `extractText` and
`countTokensLocally` discriminate them; `other` covers any further
`block.type` tag. -/
inductive CBlock where
  | text (s : String)
  | image
  | document
  | toolUse (name : String) (inputJson : String)
  | toolResult (content : Option (String ⊕ List CBlock))
  | thinking (s : String)
  | other (btype : String)

/-- A `content` or `system` value: either a bare string or an array of blocks. -/
inductive JContent where
  | str (s : String)
  | blocks (bs : List CBlock)

structure CMsg where
  content : JContent

structure CTool where
  name : String
  description : Option String
  inputSchemaJson : String
  deriving Repr, DecidableEq

structure CountReq where
  model : String
  messages : List CMsg
  system : Option JContent
  tools : List CTool
  maxTokens : Option Nat
  stream : Option Bool

def isTextBlock : CBlock → Bool
  | .text _ => true
  | _ => false

def textOfBlock : CBlock → String
  | .text s => s
  | _ => ""

def isImageOrDocument : CBlock → Bool
  | .image => true
  | .document => true
  | _ => false

/-- The message half of `hasComplexContent`: an array-valued `content` with an
`image` or `document` block (count-tokens.js lines 42-51). -/
def msgHasImageDoc (msg : CMsg) : Bool :=
  match msg.content with
  | .blocks bs => bs.any isImageOrDocument
  | .str _ => false

/-- The system half of `hasComplexContent`: an array-valued `system` with a
non-`text` block (count-tokens.js lines 54-60). -/
def systemComplex (sys : Option JContent) : Bool :=
  match sys with
  | some (.blocks bs) => bs.any (fun b => !isTextBlock b)
  | _ => false

/-- Source `hasComplexContent` (count-tokens.js lines 39-63). -/
def hasComplexContent (req : CountReq) : Bool :=
  req.messages.any msgHasImageDoc || systemComplex req.system

/-- Source `extractText` (count-tokens.js lines 71-84). -/
def extractText : JContent → String
  | .str s => s
  | .blocks bs => String.intercalate "\n" ((bs.filter isTextBlock).map textOfBlock)

/-- Per-block extra counting inside the message loop
(count-tokens.js lines 116-131); `enc` is the external `gpt-tokenizer`
`encode(...).length`. -/
def blockExtraTokens (enc : String → Nat) : CBlock → Nat
  | .toolUse name inputJson => enc name + enc inputJson
  | .toolResult content =>
    match content with
    | some (.inl s) => enc s
    | some (.inr bs) => enc (extractText (.blocks bs))
    | none => 0
  | .thinking s => enc s
  | _ => 0

/-- Source `countTokensLocally` (count-tokens.js lines 92-144). -/
def countTokensLocally (enc : String → Nat) (req : CountReq) : Nat :=
  let systemTokens :=
    match req.system with
    | some (.str s) => enc s
    | some (.blocks bs) => ((bs.filter isTextBlock).map (fun b => enc (textOfBlock b))).sum
    | none => 0
  let msgTokens := (req.messages.map (fun msg =>
    4 + enc (extractText msg.content) +
      (match msg.content with
       | .blocks bs => (bs.map (blockExtraTokens enc)).sum
       | .str _ => 0))).sum
  let toolTokens := (req.tools.map (fun t =>
    enc t.name + enc (t.description.getD "") + enc t.inputSchemaJson)).sum
  systemTokens + msgTokens + toolTokens

/-- Source `countTokensViaAPI` (count-tokens.js lines 154-199): `pickOk` is whether
`accountManager.pickNext` found an account; `upstream` maps the built request
to the `usageMetadata.promptTokenCount` of the first endpoint that answers
`ok` (`none` when every endpoint fails, which the source turns into a throw). -/
def countTokensViaAPI (pickOk : Bool) (upstream : CountReq → Option Nat)
    (req : CountReq) : Option Nat :=
  if pickOk then upstream { req with maxTokens := some 1, stream := some false }
  else none

structure CountOut where
  input_tokens : Nat
  calledUpstream : Bool
  deriving Repr, DecidableEq

/-- Source `countTokens` (count-tokens.js lines 212-244); the route handler always
passes `useAPI = false`.  `hasAM` is whether an account manager was supplied;
a failed API path falls back to local estimation in the `catch`. -/
def countTokens (enc : String → Nat) (pickOk : Bool) (upstream : CountReq → Option Nat)
    (req : CountReq) (hasAM : Bool) (useAPI : Bool) : CountOut :=
  if useAPI || (hasComplexContent req && hasAM) then
    if hasAM then
      match countTokensViaAPI pickOk upstream req with
      | some n => { input_tokens := n, calledUpstream := true }
      | none => { input_tokens := countTokensLocally enc req, calledUpstream := false }
    else
      { input_tokens := countTokensLocally enc req, calledUpstream := false }
  else
    { input_tokens := countTokensLocally enc req, calledUpstream := false }

/-! ## The two module-level dedup maps (C10)

message-handler.js line 33 and streaming-handler.js line 33 each declare
their own `const lastRateLimitTimestamps = new Map()`; the record / skip /
clear helpers of each module (lines 40-66 in both files) close over their own
map only. -/

structure DedupMaps where
  msgMap : List (String × Nat)
  streamMap : List (String × Nat)
  deriving Repr, DecidableEq

/-- Source `recordRateLimitTimestamp` in message-handler.js. -/
def msgRecordTs (d : DedupMaps) (m : String) (now : Nat) : DedupMaps :=
  { d with msgMap := setA d.msgMap m now }

/-- Source `clearRateLimitTimestamp` in message-handler.js. -/
def msgClearTs (d : DedupMaps) (m : String) : DedupMaps :=
  { d with msgMap := d.msgMap.eraseP (fun p => p.1 == m) }

/-- Source `shouldSkipRetryDueToDedup` in message-handler.js (lines 40-50): a falsy
stored timestamp is treated as absent. -/
def msgShouldSkip (d : DedupMaps) (m : String) (now : Nat) : Bool :=
  match d.msgMap.lookup m with
  | none => false
  | some ts =>
    if ts = 0 then false
    else decide ((now : ℤ) - ts < RATE_LIMIT_DEDUP_WINDOW_MS)

/-- Source `recordRateLimitTimestamp` in streaming-handler.js. -/
def streamRecordTs (d : DedupMaps) (m : String) (now : Nat) : DedupMaps :=
  { d with streamMap := setA d.streamMap m now }

/-- Source `clearRateLimitTimestamp` in streaming-handler.js. -/
def streamClearTs (d : DedupMaps) (m : String) : DedupMaps :=
  { d with streamMap := d.streamMap.eraseP (fun p => p.1 == m) }

/-- Source `shouldSkipRetryDueToDedup` in streaming-handler.js. -/
def streamShouldSkip (d : DedupMaps) (m : String) (now : Nat) : Bool :=
  match d.streamMap.lookup m with
  | none => false
  | some ts =>
    if ts = 0 then false
    else decide ((now : ℤ) - ts < RATE_LIMIT_DEDUP_WINDOW_MS)

/-- A concrete eligible account used by the closed instantiations below. -/
def sampleAccount : Account :=
  { email := "a@example.com", enabled := true, isInvalid := false, lastUsed := 0,
    modelRateLimits := [], quota := none }

/-! # Theorems -/

/-! ## Helper lemmas -/

theorem jsOr_eq (x : Option Nat) (d : Nat) :
    jsOr x d = if jsTruthy x then x.getD 0 else d := by
  cases x with
  | none => rfl
  | some r =>
    by_cases h : r = 0 <;> simp [jsOr, jsTruthy, h]

theorem capacityCond_false (t : String) (c : Nat)
    (hcap : isModelCapacityExhausted t = false ∨ MAX_CAPACITY_RETRIES ≤ c) :
    (isModelCapacityExhausted t && decide (c < MAX_CAPACITY_RETRIES)) = false := by
  rcases hcap with h | h
  · simp [h]
  · simp [Nat.not_lt.mpr h]

theorem emptyText_not_capacity : isModelCapacityExhausted "" = false := by decide

/-- C1: in the non-streaming endpoint loop, a 429 that is neither a capacity
retry nor dedup-suppressed is handled by the long/short split: a known
`resetMs > DEFAULT_COOLDOWN_MS` marks the account for exactly `resetMs` and
raises `QUOTA_EXHAUSTED`; an unknown or `≤ DEFAULT_COOLDOWN_MS` reset with
`retriedOnce` unset flips `retriedOnce`, records the dedup timestamp, and
retries the same endpoint after sleeping `resetMs` (or the default when
unknown); with `retriedOnce` already set it marks the account for that wait
and raises `RATE_LIMITED`. -/
theorem c1_short_long_rate_limit (t : String) (resetMs : Option Nat) (c : Nat)
    (hcap : isModelCapacityExhausted t = false ∨ MAX_CAPACITY_RETRIES ≤ c) :
    (∀ r, resetMs = some r → DEFAULT_COOLDOWN_MS < r → ∀ ro,
      handle429 t false ro resetMs c =
        { next := .throwSwitch .quotaExhausted, retriedOnce := ro,
          capacityRetryCount := c, recordedDedup := false, marked := some r })
    ∧ ((jsTruthy resetMs = false ∨ resetMs.getD 0 ≤ DEFAULT_COOLDOWN_MS) →
      handle429 t false false resetMs c =
        { next := .retrySame (if jsTruthy resetMs then resetMs.getD 0 else DEFAULT_COOLDOWN_MS),
          retriedOnce := true, capacityRetryCount := c, recordedDedup := true, marked := none })
    ∧ ((jsTruthy resetMs = false ∨ resetMs.getD 0 ≤ DEFAULT_COOLDOWN_MS) →
      handle429 t false true resetMs c =
        { next := .throwSwitch .rateLimited, retriedOnce := true,
          capacityRetryCount := c, recordedDedup := false,
          marked := some (if jsTruthy resetMs then resetMs.getD 0 else DEFAULT_COOLDOWN_MS) }) := by
  have hfirst := capacityCond_false t c hcap
  refine ⟨?_, ?_, ?_⟩
  · rintro r rfl hr ro
    have hne : r ≠ 0 := by
      intro h
      simp [h, DEFAULT_COOLDOWN_MS] at hr
    simp [handle429, hfirst, jsTruthy, hne, hr]
  · intro hshort
    have hcond : (jsTruthy resetMs && decide (DEFAULT_COOLDOWN_MS < resetMs.getD 0)) = false := by
      rcases hshort with h | h
      · simp [h]
      · simp [Nat.not_lt.mpr h]
    simp [handle429, hfirst, hcond, jsOr_eq]
  · intro hshort
    have hcond : (jsTruthy resetMs && decide (DEFAULT_COOLDOWN_MS < resetMs.getD 0)) = false := by
      rcases hshort with h | h
      · simp [h]
      · simp [Nat.not_lt.mpr h]
    simp [handle429, hfirst, hcond, jsOr_eq]

/-- Witness for C1 at a concrete long reset (20 s). -/
theorem c1_short_long_rate_limit_witness :
    handle429 "quota exceeded" false false (some 20000) 0 =
      { next := .throwSwitch .quotaExhausted, retriedOnce := false,
        capacityRetryCount := 0, recordedDedup := false, marked := some 20000 } :=
  (c1_short_long_rate_limit "quota exceeded" (some 20000) 0
    (Or.inl (by decide))).1 20000 rfl (by decide) false

/-- C5: when the outer loop finds no available account and all usable accounts
hold unexpired rate limits, a wait above `MAX_WAIT_BEFORE_ERROR_MS` recurses
once into a mapped fallback model with `fallbackEnabled = false`, or fails
with `RESOURCE_EXHAUSTED` carrying the model, wait, and absolute reset time
when no fallback applies; a wait at most `MAX_WAIT_BEFORE_ERROR_MS` sleeps
`wait + 500` and retries the outer loop. -/
theorem c5_all_rate_limited (model : String) (minWaitMs : Nat) (fbE : Bool)
    (fbM : Option String) (now : Nat) :
    (∀ fm, MAX_WAIT_BEFORE_ERROR_MS < minWaitMs → fbM = some fm →
      handleNoAccounts model true minWaitMs true fbM now = .fallbackRecurse fm)
    ∧ (MAX_WAIT_BEFORE_ERROR_MS < minWaitMs → (fbE = false ∨ fbM = none) →
      handleNoAccounts model true minWaitMs fbE fbM now =
        .throwResourceExhausted model minWaitMs (now + minWaitMs))
    ∧ (minWaitMs ≤ MAX_WAIT_BEFORE_ERROR_MS →
      handleNoAccounts model true minWaitMs fbE fbM now = .sleepRetry (minWaitMs + 500))
    ∧ (∀ (ev1 ev2 : Nat → IterEvent) (n a : Nat) (fm : String),
      runOuter model true fbM now ev1 (maxAttempts n) 0 = .recurse fm a →
      dispatch model fbM now ev1 ev2 n true =
        .viaFallback fm (finishInner (runOuter fm false fbM now ev2 (maxAttempts n) 0))) := by
  refine ⟨?_, ?_, ?_, ?_⟩
  · rintro fm hw rfl
    simp [handleNoAccounts, hw]
  · intro hw hnofb
    rcases hnofb with rfl | rfl
    · simp [handleNoAccounts, hw]
    · cases fbE <;> simp [handleNoAccounts, hw]
  · intro hw
    simp [handleNoAccounts, Nat.not_lt.mpr hw]
  · intro ev1 ev2 n a fm h
    simp [dispatch, h]

/-- Witness for C5 at a 130 s wait with a mapped fallback model. -/
theorem c5_all_rate_limited_witness :
    handleNoAccounts "gemini-3-pro" true 130000 true (some "gemini-3-flash") 7 =
      .fallbackRecurse "gemini-3-flash" :=
  (c5_all_rate_limited "gemini-3-pro" 130000 true (some "gemini-3-flash") 7).1
    "gemini-3-flash" (by decide) rfl

/-- C6: a capacity-exhausted 429 with retries left increments
`capacityRetryCount`, sleeps `resetMs` (or `CAPACITY_RETRY_DELAY_MS` when
unknown), and stays on the same endpoint with the ledger untouched; three
scripted capacity 429s with no reset followed by a 200 succeed after exactly
three 2 s sleeps with `capacityRetryCount = 3`, `endpointIndex` unchanged and
no `markRateLimited`; with retries exhausted a capacity 429 falls through to
the same dedup/long/short logic as a non-capacity 429. -/
theorem c6_capacity_retries :
    (∀ (t : String) (d ro : Bool) (r : Option Nat) (c : Nat),
      isModelCapacityExhausted t = true → c < MAX_CAPACITY_RETRIES →
      handle429 t d ro r c =
        { next := .retrySame (if jsTruthy r then r.getD 0 else CAPACITY_RETRY_DELAY_MS),
          retriedOnce := ro, capacityRetryCount := c + 1,
          recordedDedup := false, marked := none })
    ∧ runEndpointLoop 1 false
        [ .http429 "model_capacity_exhausted" none,
          .http429 "model_capacity_exhausted" none,
          .http429 "model_capacity_exhausted" none,
          .ok ] initLoopSt =
      .success { initLoopSt with capacityRetryCount := 3, sleeps := [2000, 2000, 2000] }
    ∧ (∀ (t : String) (d ro : Bool) (r : Option Nat) (c : Nat),
      MAX_CAPACITY_RETRIES ≤ c → handle429 t d ro r c = handle429 "" d ro r c) := by
  refine ⟨?_, by decide, ?_⟩
  · intro t d ro r c ht hc
    simp [handle429, ht, hc, jsOr_eq]
  · intro t d ro r c hc
    have h1 := capacityCond_false t c (Or.inr hc)
    have h2 := capacityCond_false "" c (Or.inr hc)
    simp [handle429, h1, h2]

/-- Witness for C6 at a concrete capacity 429 with one retry already used. -/
theorem c6_capacity_retries_witness :
    handle429 "model_capacity_exhausted" false false none 1 =
      { next := .retrySame CAPACITY_RETRY_DELAY_MS, retriedOnce := false,
        capacityRetryCount := 2, recordedDedup := false, marked := none } :=
  c6_capacity_retries.1 "model_capacity_exhausted" false false none 1 (by decide) (by decide)

/-- C10: the non-streaming and streaming dispatchers keep disjoint
module-level dedup maps: recording or clearing a timestamp in one module
never changes what the other module's `shouldSkipRetryDueToDedup` observes. -/
theorem c10_dedup_maps_disjoint (d : DedupMaps) (m m' : String) (t now : Nat) :
    msgShouldSkip (streamRecordTs d m' t) m now = msgShouldSkip d m now
    ∧ streamShouldSkip (msgRecordTs d m' t) m now = streamShouldSkip d m now
    ∧ (msgClearTs d m').streamMap = d.streamMap
    ∧ (streamClearTs d m').msgMap = d.msgMap
    ∧ (msgRecordTs d m' t).streamMap = d.streamMap
    ∧ (streamRecordTs d m' t).msgMap = d.msgMap :=
  ⟨rfl, rfl, rfl, rfl, rfl, rfl⟩

/-! ## Termination of the outer loop (C2) -/

theorem itersOf_runOuter_le (model : String) (fbE : Bool) (fbM : Option String)
    (now : Nat) (ev : Nat → IterEvent) :
    ∀ fuel attempt, itersOf (runOuter model fbE fbM now ev fuel attempt) ≤ attempt + fuel := by
  intro fuel
  induction fuel with
  | zero => intro attempt; simp [runOuter, itersOf]
  | succ n ih =>
    intro attempt
    rw [runOuter]
    rcases hs : stepIter model fbE fbM now (ev attempt) with s | r | fm
    · exact (ih (attempt + 1)).trans (by omega)
    · have h2 : itersOf (LoopEnd.finished r attempt) ≤ attempt + (n + 1) := by
        simp [itersOf]
      exact h2
    · have h2 : itersOf (LoopEnd.recurse fm attempt) ≤ attempt + (n + 1) := by
        simp [itersOf]
      exact h2

theorem handleNoAccounts_false_no_recurse (model : String) (arl : Bool) (w : Nat)
    (fbM : Option String) (now : Nat) (fm : String) :
    handleNoAccounts model arl w false fbM now ≠ .fallbackRecurse fm := by
  cases arl with
  | false => simp [handleNoAccounts]
  | true =>
    by_cases hw : MAX_WAIT_BEFORE_ERROR_MS < w
    · simp [handleNoAccounts, hw]
    · simp [handleNoAccounts, hw]

theorem stepIter_false_no_recurse (model : String) (fbM : Option String) (now : Nat)
    (e : IterEvent) (fm : String) :
    stepIter model false fbM now e ≠ .recurseFallback fm := by
  cases e with
  | noAccounts arl w =>
    simp only [stepIter]
    rcases h : handleNoAccounts model arl w false fbM now with fm2 | _ | _ | _
    · exact absurd h (handleNoAccounts_false_no_recurse model arl w fbM now fm2)
    · simp
    · simp
    · simp
  | selectWait w => simp [stepIter]
  | selectNone => simp [stepIter]
  | endpointReturn => simp [stepIter]
  | endpointEmptyFallback => simp [stepIter]
  | caughtContinue => simp [stepIter]
  | rethrow m => simp [stepIter]

theorem runOuter_false_no_recurse (model : String) (fbM : Option String) (now : Nat)
    (ev : Nat → IterEvent) :
    ∀ fuel attempt fm a, runOuter model false fbM now ev fuel attempt ≠ .recurse fm a := by
  intro fuel
  induction fuel with
  | zero => intro attempt fm a; simp [runOuter]
  | succ n ih =>
    intro attempt fm a
    rw [runOuter]
    rcases hs : stepIter model false fbM now (ev attempt) with s | r | fm2
    · exact ih (attempt + 1) fm a
    · simp
    · exact absurd hs (stepIter_false_no_recurse model fbM now _ fm2)

/-- C2: both dispatchers terminate: the outer loop runs at most
`maxAttempts = max(MAX_RETRIES, accountCount + 1)` iterations, the fallback
invocation (run with `fallbackEnabled = false`) can never recurse again, every
call ends as a direct result or as a single fallback recursion, and an
exhausted fallback loop yields `Max retries exceeded`. -/
theorem c2_dispatch_terminates (model : String) (fbM : Option String) (now : Nat)
    (ev1 ev2 : Nat → IterEvent) (accountCount : Nat) (fbE : Bool) :
    itersOf (runOuter model fbE fbM now ev1 (maxAttempts accountCount) 0) ≤ maxAttempts accountCount
    ∧ (∀ fm a, runOuter model false fbM now ev2 (maxAttempts accountCount) 0 ≠ .recurse fm a)
    ∧ ((∃ r, dispatch model fbM now ev1 ev2 accountCount fbE = .direct r) ∨
       (∃ fm r, dispatch model fbM now ev1 ev2 accountCount fbE = .viaFallback fm r))
    ∧ (∀ e : LoopEnd, (∃ a, e = .exhausted a) → finishInner e = .maxRetriesExceeded) := by
  refine ⟨?_, ?_, ?_, ?_⟩
  · simpa using itersOf_runOuter_le model fbE fbM now ev1 (maxAttempts accountCount) 0
  · intro fm a; exact runOuter_false_no_recurse model fbM now ev2 _ 0 fm a
  · cases h : dispatch model fbM now ev1 ev2 accountCount fbE with
    | direct r => exact Or.inl ⟨r, rfl⟩
    | viaFallback fm r => exact Or.inr ⟨fm, r, rfl⟩
  · rintro e ⟨a, rfl⟩
    rfl

/-- Witness for C2 on a one-account oracle that always continues. -/
theorem c2_dispatch_terminates_witness :
    itersOf (runOuter "gemini-3-pro" true none 0 (fun _ => .caughtContinue)
      (maxAttempts 1) 0) ≤ maxAttempts 1
    ∧ finishInner (.exhausted 2) = .maxRetriesExceeded :=
  ⟨(c2_dispatch_terminates "gemini-3-pro" none 0 (fun _ => .caughtContinue)
      (fun _ => .caughtContinue) 1 true).1,
   (c2_dispatch_terminates "gemini-3-pro" none 0 (fun _ => .caughtContinue)
      (fun _ => .caughtContinue) 1 true).2.2.2 (.exhausted 2) ⟨2, rfl⟩⟩

/-! ## Quota thresholds (C7) -/

/-- C7: with the default configuration, `isQuotaCritical` holds iff the
fraction is known, the quota data is fresh and the fraction is at most the
critical threshold `0.05` (equality included); `isQuotaLow` holds iff the
fraction is known and lies strictly above `0.05` and at most `0.10`
(equality included, no freshness requirement); `getScore` returns the unknown
score `50` when the fraction is unknown and otherwise `fraction × 100`,
multiplied by `0.9` exactly when the data is stale. -/
theorem c7_quota_thresholds (a : Account) (m : String) (now : Nat) :
    (QuotaTracker.isQuotaCritical defaultQuotaConfig a m now = true ↔
      ∃ f, QuotaTracker.getQuotaFraction a m = some f ∧
        QuotaTracker.isQuotaFresh defaultQuotaConfig a now = true ∧ f ≤ 1/20)
    ∧ (QuotaTracker.isQuotaLow defaultQuotaConfig a m = true ↔
      ∃ f, QuotaTracker.getQuotaFraction a m = some f ∧ 1/20 < f ∧ f ≤ 1/10)
    ∧ (QuotaTracker.getQuotaFraction a m = none →
      QuotaTracker.getScore defaultQuotaConfig a m now = 50)
    ∧ (∀ f, QuotaTracker.getQuotaFraction a m = some f →
      QuotaTracker.getScore defaultQuotaConfig a m now =
        if QuotaTracker.isQuotaFresh defaultQuotaConfig a now = true then f * 100
        else f * 100 * (9/10)) := by
  refine ⟨?_, ?_, ?_, ?_⟩
  · rcases hf : QuotaTracker.getQuotaFraction a m with _ | f
    · simp [QuotaTracker.isQuotaCritical, hf]
    · cases hfr : QuotaTracker.isQuotaFresh defaultQuotaConfig a now with
      | false => simp [QuotaTracker.isQuotaCritical, hf, hfr]
      | true =>
        simp [QuotaTracker.isQuotaCritical, hf, hfr,
          show defaultQuotaConfig.criticalThreshold = 1/20 from rfl]
  · rcases hf : QuotaTracker.getQuotaFraction a m with _ | f
    · simp [QuotaTracker.isQuotaLow, hf]
    · simp [QuotaTracker.isQuotaLow, hf,
        show defaultQuotaConfig.criticalThreshold = 1/20 from rfl,
        show defaultQuotaConfig.lowThreshold = 1/10 from rfl]
      tauto
  · intro hf
    simp [QuotaTracker.getScore, hf,
      show defaultQuotaConfig.unknownScore = 50 from rfl]
  · intro f hf
    cases hfr : QuotaTracker.isQuotaFresh defaultQuotaConfig a now with
    | false => simp [QuotaTracker.getScore, hf, hfr]
    | true => simp [QuotaTracker.getScore, hf, hfr]

/-- Witness for C7 on an account with no quota data. -/
theorem c7_quota_thresholds_witness :
    QuotaTracker.getScore defaultQuotaConfig
      { email := "w", enabled := true, isInvalid := false, lastUsed := 0,
        modelRateLimits := [], quota := none } "m" 0 = 50 :=
  (c7_quota_thresholds
    { email := "w", enabled := true, isInvalid := false, lastUsed := 0,
      modelRateLimits := [], quota := none } "m" 0).2.2.1 rfl

/-! ## Empty-response recovery and the synthetic fallback stream (C4) -/

theorem flatten_hex_length (bs : List (Fin 256)) :
    ((bs.map byteToHex).flatten).length = 2 * bs.length := by
  induction bs with
  | nil => rfl
  | cons b rest ih =>
    simp [byteToHex, ih]
    omega

theorem bytesToHex_length (bs : List (Fin 256)) :
    (bytesToHex bs).length = 2 * bs.length := by
  have h := flatten_hex_length bs
  simpa [bytesToHex, String.length] using h

theorem hexDigit_mem_of_lt (n : Nat) (h : n < 16) : hexDigit n ∈ hexDigits := by
  have hall : ∀ i : Fin 16, hexDigit i.val ∈ hexDigits := by decide
  exact hall ⟨n, h⟩

theorem bytesToHex_chars (bs : List (Fin 256)) :
    ∀ c ∈ (bytesToHex bs).toList, c ∈ hexDigits := by
  intro c hc
  have hc2 : c ∈ (bs.map byteToHex).flatten := hc
  rw [List.mem_flatten] at hc2
  obtain ⟨l, hl, hcl⟩ := hc2
  rw [List.mem_map] at hl
  obtain ⟨b, _, rfl⟩ := hl
  simp only [byteToHex, List.mem_cons, List.mem_singleton] at hcl
  rcases hcl with rfl | rfl | h
  · exact hexDigit_mem_of_lt _ ((Nat.div_lt_iff_lt_mul (by norm_num)).mpr b.isLt)
  · exact hexDigit_mem_of_lt _ (Nat.mod_lt _ (by norm_num))
  · exact absurd h (List.not_mem_nil c)

/-- C4: when every streaming attempt signals `EmptyResponseError` and every
re-issued POST is `ok`, the loop sleeps exactly 500, 1000 and 2000 ms before
the three retries and then returns normally with the synthetic fallback
stream and no `markRateLimited`; the fallback stream is exactly the six
events `message_start` (with a `msg_` + 32-hex-character id),
`content_block_start` (text), one `content_block_delta` with the literal
text, `content_block_stop`, `message_delta` (`end_turn`), `message_stop`. -/
theorem c4_empty_response_fallback (model : String) (randBytes : List (Fin 256))
    (isEmpty : Nat → Bool) (refetch : Nat → RetryFetch)
    (hE : ∀ j, isEmpty j = true) (hF : ∀ j, refetch j = .okResp) :
    emptyRespLoop model randBytes isEmpty refetch 0 =
      { sleeps := [500, 1000, 2000], marks := [], markedInvalid := false,
        ende := .fallbackEmitted (emitEmptyResponseFallback model randBytes) }
    ∧ (emitEmptyResponseFallback model randBytes).length = 6
    ∧ emitEmptyResponseFallback model randBytes =
        [ .messageStart ("msg_" ++ bytesToHex randBytes) model,
          .contentBlockStart "text",
          .contentBlockDelta "text_delta" "[No response after retries - please try again]",
          .contentBlockStop,
          .messageDelta "end_turn",
          .messageStop ]
    ∧ (randBytes.length = 16 → (bytesToHex randBytes).length = 32)
    ∧ (∀ c ∈ (bytesToHex randBytes).toList, c ∈ hexDigits) := by
  have e3 : emptyRespLoop model randBytes isEmpty refetch 3 =
      { sleeps := [], marks := [], markedInvalid := false,
        ende := .fallbackEmitted (emitEmptyResponseFallback model randBytes) } := by
    rw [emptyRespLoop]
    simp [hE 3, MAX_EMPTY_RESPONSE_RETRIES]
  have e2 : emptyRespLoop model randBytes isEmpty refetch 2 =
      { sleeps := [2000], marks := [], markedInvalid := false,
        ende := .fallbackEmitted (emitEmptyResponseFallback model randBytes) } := by
    rw [emptyRespLoop]
    simp [hE 2, hF 2, MAX_EMPTY_RESPONSE_RETRIES, e3]
  have e1 : emptyRespLoop model randBytes isEmpty refetch 1 =
      { sleeps := [1000, 2000], marks := [], markedInvalid := false,
        ende := .fallbackEmitted (emitEmptyResponseFallback model randBytes) } := by
    rw [emptyRespLoop]
    simp [hE 1, hF 1, MAX_EMPTY_RESPONSE_RETRIES, e2]
  have e0 : emptyRespLoop model randBytes isEmpty refetch 0 =
      { sleeps := [500, 1000, 2000], marks := [], markedInvalid := false,
        ende := .fallbackEmitted (emitEmptyResponseFallback model randBytes) } := by
    rw [emptyRespLoop]
    simp [hE 0, hF 0, MAX_EMPTY_RESPONSE_RETRIES, e1]
  refine ⟨e0, rfl, rfl, ?_, bytesToHex_chars randBytes⟩
  intro h16
  rw [bytesToHex_length, h16]

/-- Witness for C4 with a fixed byte draw and always-empty streams. -/
theorem c4_empty_response_fallback_witness :
    emptyRespLoop "gemini-3-pro" (List.replicate 16 (0 : Fin 256))
      (fun _ => true) (fun _ => .okResp) 0 =
      { sleeps := [500, 1000, 2000], marks := [], markedInvalid := false,
        ende := .fallbackEmitted
          (emitEmptyResponseFallback "gemini-3-pro" (List.replicate 16 (0 : Fin 256))) } :=
  (c4_empty_response_fallback "gemini-3-pro" (List.replicate 16 (0 : Fin 256))
    (fun _ => true) (fun _ => .okResp) (fun _ => rfl) (fun _ => rfl)).1

/-! ## Token counting (C8) -/

/-- C8: a `count_tokens` request with no `image`/`document` message block and
a text-only (or string/absent) `system` is counted by local tokenization with
no upstream call; a request containing such a block, when an account manager
is available and the upstream answers, gets its count from an upstream
`generateContent` built from the original request with `max_tokens := 1`,
reading the prompt token count of its usage metadata. -/
theorem msgHasImageDoc_false_iff (msg : CMsg) :
    msgHasImageDoc msg = false ↔
      ∀ bs, msg.content = .blocks bs → ∀ b ∈ bs, isImageOrDocument b = false := by
  rcases hc : msg.content with s | bs
  · simp [msgHasImageDoc, hc]
  · simp [msgHasImageDoc, hc, List.any_eq_false]

theorem systemComplex_false_iff (sys : Option JContent) :
    systemComplex sys = false ↔
      ∀ bs, sys = some (.blocks bs) → ∀ b ∈ bs, isTextBlock b = true := by
  rcases sys with _ | c
  · simp [systemComplex]
  · rcases c with s | bs
    · simp [systemComplex]
    · simp [systemComplex, List.any_eq_false]

theorem anyMsg_false_iff (msgs : List CMsg) :
    msgs.any msgHasImageDoc = false ↔ ∀ msg ∈ msgs, msgHasImageDoc msg = false := by
  simp [List.any_eq_false]

theorem c8_count_tokens (enc : String → Nat) (pickOk : Bool)
    (upstream : CountReq → Option Nat) (req : CountReq) (hasAM : Bool) :
    (hasComplexContent req = false ↔
      ((∀ msg ∈ req.messages, ∀ bs, msg.content = .blocks bs →
          ∀ b ∈ bs, isImageOrDocument b = false)
       ∧ (∀ bs, req.system = some (.blocks bs) → ∀ b ∈ bs, isTextBlock b = true)))
    ∧ (hasComplexContent req = false →
      countTokens enc pickOk upstream req hasAM false =
        { input_tokens := countTokensLocally enc req, calledUpstream := false })
    ∧ (hasComplexContent req = true → hasAM = true → pickOk = true →
      ∀ n, upstream { req with maxTokens := some 1, stream := some false } = some n →
        countTokens enc pickOk upstream req hasAM false =
          { input_tokens := n, calledUpstream := true }) := by
  refine ⟨?_, ?_, ?_⟩
  · rw [hasComplexContent, Bool.or_eq_false_iff, anyMsg_false_iff, systemComplex_false_iff]
    constructor
    · rintro ⟨h1, h2⟩
      exact ⟨fun msg hm bs hbs b hb =>
        (msgHasImageDoc_false_iff msg).mp (h1 msg hm) bs hbs b hb, h2⟩
    · rintro ⟨h1, h2⟩
      exact ⟨fun msg hm =>
        (msgHasImageDoc_false_iff msg).mpr (fun bs hbs b hb => h1 msg hm bs hbs b hb), h2⟩
  · intro h
    simp [countTokens, h]
  · intro h hAM hpick n hup
    simp [countTokens, h, hAM, hpick, countTokensViaAPI, hup]

/-- Witness for C8 on a one-image request with a stubbed upstream. -/
theorem c8_count_tokens_witness :
    countTokens (fun _ => 0) true (fun _ => some 7)
      { model := "m", messages := [{ content := .blocks [.image] }],
        system := none, tools := [], maxTokens := none, stream := none } true false =
      { input_tokens := 7, calledUpstream := true } :=
  (c8_count_tokens (fun _ => 0) true (fun _ => some 7)
    { model := "m", messages := [{ content := .blocks [.image] }],
      system := none, tools := [], maxTokens := none, stream := none } true).2.2
    rfl rfl rfl 7 rfl

/-! ## Hybrid selection (C3) -/

theorem bestOf_eq (xs : List ScoredCand) : ∀ x : ScoredCand,
    bestOf x xs = (match firstMax xs with
      | none => x
      | some c => if x.score < c.score then c else x) := by
  induction xs with
  | nil => intro x; rfl
  | cons c cs ih =>
    intro x
    rcases h : firstMax cs with _ | mm
    · simp [bestOf, ih, h, firstMax]
    · by_cases h1 : c.score < mm.score
      · by_cases h2 : x.score < c.score
        · have h3 : x.score < mm.score := lt_trans h2 h1
          simp [bestOf, ih, h, firstMax, h1, h2, h3]
        · simp [bestOf, ih, h, firstMax, h1, h2]
      · by_cases h2 : x.score < c.score
        · simp [bestOf, ih, h, firstMax, h1, h2]
        · have h3 : ¬ x.score < mm.score :=
            not_lt.mpr (le_trans (not_lt.mp h1) (not_lt.mp h2))
          simp [bestOf, ih, h, firstMax, h1, h2, h3]

theorem pickBest_eq_firstMax (l : List ScoredCand) : pickBest l = firstMax l := by
  cases l with
  | nil => rfl
  | cons x xs =>
    rcases h : firstMax xs with _ | m
    · simp [pickBest, bestOf_eq, firstMax, h]
    · simp only [pickBest, bestOf_eq, firstMax, h]
      split_ifs <;> rfl

theorem firstMax_eq_none (l : List ScoredCand) : firstMax l = none ↔ l = [] := by
  cases l with
  | nil => simp [firstMax]
  | cons x xs =>
    rcases h : firstMax xs with _ | m
    · simp [firstMax, h]
    · simp only [firstMax, h]
      split_ifs <;> simp

theorem firstMax_split : ∀ {l : List ScoredCand} {c : ScoredCand},
    firstMax l = some c → ∃ pre post, l = pre ++ c :: post ∧ ∀ y ∈ pre, y.score < c.score := by
  intro l
  induction l with
  | nil => intro c h; simp [firstMax] at h
  | cons x xs ih =>
    intro c h
    rw [firstMax] at h
    rcases h2 : firstMax xs with _ | m
    · rw [h2] at h
      obtain rfl := Option.some.inj h
      exact ⟨[], xs, rfl, by simp⟩
    · rw [h2] at h
      have h4 : (if x.score < m.score then some m else some x) = some c := h
      by_cases h3 : x.score < m.score
      · rw [if_pos h3] at h4
        obtain rfl := Option.some.inj h4
        obtain ⟨pre, post, heq, hpre⟩ := ih h2
        refine ⟨x :: pre, post, by rw [heq, List.cons_append], ?_⟩
        intro y hy
        rcases List.mem_cons.mp hy with rfl | hy2
        · exact h3
        · exact hpre y hy2
      · rw [if_neg h3] at h4
        obtain rfl := Option.some.inj h4
        exact ⟨[], xs, rfl, by simp⟩

theorem firstMax_ge : ∀ {l : List ScoredCand} {c : ScoredCand},
    firstMax l = some c → ∀ y ∈ l, y.score ≤ c.score := by
  intro l
  induction l with
  | nil => intro c h y hy; simp at hy
  | cons x xs ih =>
    intro c h y hy
    rw [firstMax] at h
    rcases h2 : firstMax xs with _ | m
    · rw [h2] at h
      obtain rfl := Option.some.inj h
      have hxs : xs = [] := (firstMax_eq_none xs).mp h2
      subst hxs
      rcases List.mem_cons.mp hy with rfl | hy2
      · exact le_refl _
      · simp at hy2
    · rw [h2] at h
      have h4 : (if x.score < m.score then some m else some x) = some c := h
      by_cases h3 : x.score < m.score
      · rw [if_pos h3] at h4
        obtain rfl := Option.some.inj h4
        rcases List.mem_cons.mp hy with rfl | hy2
        · exact le_of_lt h3
        · exact ih h2 y hy2
      · rw [if_neg h3] at h4
        obtain rfl := Option.some.inj h4
        rcases List.mem_cons.mp hy with rfl | hy2
        · exact le_refl _
        · exact le_trans (ih h2 y hy2) (not_lt.mp h3)

theorem mem_getCandidates_base {accounts : List Account} {m : String} {health : HealthMap}
    {bucket : BucketMap} {now : Nat} {p : Nat × Account}
    (hp : p ∈ getCandidates accounts m health bucket now) :
    isAccountUsable p.2 m now = true ∧ HealthTracker.isUsable health p.2.email = true ∧
    TokenBucket.hasTokens bucket p.2.email = true := by
  rw [getCandidates] at hp
  split_ifs at hp <;>
  · obtain ⟨-, hfil⟩ := List.mem_filter.mp hp
    simp only [hybridFilter, Bool.and_eq_true] at hfil
    exact ⟨hfil.1.1.1, hfil.1.1.2, hfil.1.2⟩

theorem lookup_setA_self {α : Type} (st : List (String × α)) (k : String) (v : α) :
    (setA st k v).lookup k = some v := by
  simp [setA, List.lookup]

theorem lookup_eraseP_ne {α : Type} (st : List (String × α)) (k k' : String) (hne : k' ≠ k) :
    (st.eraseP (fun p => p.1 == k)).lookup k' = st.lookup k' := by
  induction st with
  | nil => rfl
  | cons a rest ih =>
    rcases a with ⟨ak, av⟩
    by_cases h : ak = k
    · subst h
      have hb : (k' == ak) = false := beq_eq_false_iff_ne.mpr hne
      simp [List.eraseP_cons, List.lookup, hb]
    · have hb : (ak == k) = false := beq_eq_false_iff_ne.mpr h
      by_cases h2 : k' = ak
      · subst h2
        simp [List.eraseP_cons, hb, List.lookup]
      · have hb2 : (k' == ak) = false := beq_eq_false_iff_ne.mpr h2
        simp [List.eraseP_cons, hb, hb2, List.lookup, ih]

theorem getTokens_setA_self (st : BucketMap) (e : String) (v : Nat) :
    TokenBucket.getTokens (setA st e v) e = v := by
  simp [TokenBucket.getTokens, lookup_setA_self]

theorem getTokens_setA_ne (st : BucketMap) (e e' : String) (v : Nat) (h : e' ≠ e) :
    TokenBucket.getTokens (setA st e v) e' = TokenBucket.getTokens st e' := by
  have hb : (e' == e) = false := beq_eq_false_iff_ne.mpr h
  simp [TokenBucket.getTokens, setA, List.lookup, hb, lookup_eraseP_ne _ _ _ h]

theorem consume_spec (st : BucketMap) (e : String)
    (h : 1 ≤ TokenBucket.getTokens st e) :
    TokenBucket.getTokens (TokenBucket.consume st e).1 e = TokenBucket.getTokens st e - 1
    ∧ ∀ e', e' ≠ e →
        TokenBucket.getTokens (TokenBucket.consume st e).1 e' = TokenBucket.getTokens st e' := by
  rw [TokenBucket.consume]
  simp only [h, if_true]
  exact ⟨getTokens_setA_self st e _, fun e' he' => getTokens_setA_ne st e e' _ he'⟩

theorem calculateScore_spec_form (health : HealthMap) (bucket : BucketMap)
    (a : Account) (m : String) (now : Nat) :
    calculateScore health bucket a m now =
      2 * HealthTracker.getScore health a.email
      + 5 * ((TokenBucket.getTokens bucket a.email : ℚ) / (TokenBucket.getMaxTokens : ℚ) * 100)
      + 3 * QuotaTracker.getScore defaultQuotaConfig a m now
      + (1/10) * min (((now : ℚ) - (a.lastUsed : ℚ)) / 60000) 60 := by
  rw [calculateScore]
  have hmin : (min ((now : ℚ) - (a.lastUsed : ℚ)) 3600000) / 60000
      = min (((now : ℚ) - (a.lastUsed : ℚ)) / 60000) 60 := by
    rcases le_total ((now : ℚ) - (a.lastUsed : ℚ)) 3600000 with hle | hle
    · rw [min_eq_left hle, min_eq_left]
      rw [div_le_iff₀ (by norm_num : (0:ℚ) < 60000)]
      linarith
    · rw [min_eq_right hle, min_eq_right]
      · norm_num
      · rw [le_div_iff₀ (by norm_num : (0:ℚ) < 60000)]
        linarith
  rw [hmin]
  ring

/-- C3: whenever the hybrid candidate set (the accounts that are
sticky-usable, health-usable, and hold at least one token, excluding
quota-critical accounts unless that set is empty) is non-empty,
`HybridStrategy.selectAccount` picks the scored candidate of maximal score,
with ties resolved for the earliest candidate in insertion order, stamps its
`lastUsed` to now, and consumes exactly one token from its bucket; the score
is the spec formula `2·H + 5·(tokens/maxTokens)·100 + 3·Q +
0.1·minutesSinceLastUse` with the minutes capped at 60. -/
theorem c3_hybrid_selection (accounts : List Account) (m : String) (health : HealthMap)
    (bucket : BucketMap) (now : Nat)
    (hc : getCandidates accounts m health bucket now ≠ []) :
    ∃ best pre post,
      hybridScored accounts m health bucket now = pre ++ best :: post
      ∧ (∀ y ∈ hybridScored accounts m health bucket now, y.score ≤ best.score)
      ∧ (∀ y ∈ pre, y.score < best.score)
      ∧ (best.idx, best.account) ∈ getCandidates accounts m health bucket now
      ∧ best.score = calculateScore health bucket best.account m now
      ∧ selectAccount accounts m health bucket now =
          { selected := some (best.idx, { best.account with lastUsed := now }),
            accountsAfter := accounts.set best.idx { best.account with lastUsed := now },
            bucketAfter := (TokenBucket.consume bucket best.account.email).1,
            waitMs := 0 }
      ∧ 1 ≤ TokenBucket.getTokens bucket best.account.email
      ∧ TokenBucket.getTokens (TokenBucket.consume bucket best.account.email).1
          best.account.email = TokenBucket.getTokens bucket best.account.email - 1
      ∧ (∀ e, e ≠ best.account.email →
          TokenBucket.getTokens (TokenBucket.consume bucket best.account.email).1 e
            = TokenBucket.getTokens bucket e)
      ∧ (∀ a : Account, calculateScore health bucket a m now =
          2 * HealthTracker.getScore health a.email
          + 5 * ((TokenBucket.getTokens bucket a.email : ℚ) / (TokenBucket.getMaxTokens : ℚ) * 100)
          + 3 * QuotaTracker.getScore defaultQuotaConfig a m now
          + (1/10) * min (((now : ℚ) - (a.lastUsed : ℚ)) / 60000) 60) := by
  have hscnil : hybridScored accounts m health bucket now ≠ [] := by
    rw [hybridScored]
    intro h
    exact hc (List.map_eq_nil_iff.mp h)
  rcases h2 : firstMax (hybridScored accounts m health bucket now) with _ | best
  · exact absurd ((firstMax_eq_none _).mp h2) hscnil
  obtain ⟨pre, post, hsplit, hpre⟩ := firstMax_split h2
  have hge := firstMax_ge h2
  have hmem : best ∈ hybridScored accounts m health bucket now := by
    rw [hsplit]
    exact List.mem_append_right _ (List.mem_cons_self _ _)
  obtain ⟨p, hpmem, hpeq⟩ := List.mem_map.mp (by rwa [hybridScored] at hmem)
  have hacc : best.account = p.2 := by rw [← hpeq]
  have hidx : best.idx = p.1 := by rw [← hpeq]
  have hscore : best.score = calculateScore health bucket best.account m now := by
    rw [← hpeq]
  have hpmem2 : (best.idx, best.account) ∈ getCandidates accounts m health bucket now := by
    rw [hidx, hacc]
    exact hpmem
  have hbase := mem_getCandidates_base hpmem
  have htok : 1 ≤ TokenBucket.getTokens bucket best.account.email := by
    rw [hacc]
    exact (by simpa [TokenBucket.hasTokens] using hbase.2.2 : _)
  have hane : accounts.isEmpty = false := by
    cases accounts with
    | nil =>
      exfalso
      exact hc rfl
    | cons a l => rfl
  have hsel : selectAccount accounts m health bucket now =
      { selected := some (best.idx, { best.account with lastUsed := now }),
        accountsAfter := accounts.set best.idx { best.account with lastUsed := now },
        bucketAfter := (TokenBucket.consume bucket best.account.email).1,
        waitMs := 0 } := by
    rw [selectAccount, hane, pickBest_eq_firstMax, h2]
    rfl
  obtain ⟨hcons, hconsne⟩ := consume_spec bucket best.account.email htok
  exact ⟨best, pre, post, hsplit, hge, hpre, hpmem2, hscore, hsel, htok, hcons, hconsne,
    fun a => calculateScore_spec_form health bucket a m now⟩

/-- Witness for C3 on a single eligible account with fresh trackers. -/
theorem c3_hybrid_selection_witness :
    ∃ best pre post,
      hybridScored [sampleAccount] "m" [] [] 0 = pre ++ best :: post
      ∧ (∀ y ∈ hybridScored [sampleAccount] "m" [] [] 0, y.score ≤ best.score)
      ∧ (∀ y ∈ pre, y.score < best.score)
      ∧ (best.idx, best.account) ∈ getCandidates [sampleAccount] "m" [] [] 0
      ∧ best.score = calculateScore [] [] best.account "m" 0
      ∧ selectAccount [sampleAccount] "m" [] [] 0 =
          { selected := some (best.idx, { best.account with lastUsed := 0 }),
            accountsAfter := [sampleAccount].set best.idx { best.account with lastUsed := 0 },
            bucketAfter := (TokenBucket.consume [] best.account.email).1,
            waitMs := 0 }
      ∧ 1 ≤ TokenBucket.getTokens [] best.account.email
      ∧ TokenBucket.getTokens (TokenBucket.consume [] best.account.email).1
          best.account.email = TokenBucket.getTokens [] best.account.email - 1
      ∧ (∀ e, e ≠ best.account.email →
          TokenBucket.getTokens (TokenBucket.consume [] best.account.email).1 e
            = TokenBucket.getTokens [] e)
      ∧ (∀ a : Account, calculateScore [] [] a "m" 0 =
          2 * HealthTracker.getScore [] a.email
          + 5 * ((TokenBucket.getTokens [] a.email : ℚ) / (TokenBucket.getMaxTokens : ℚ) * 100)
          + 3 * QuotaTracker.getScore defaultQuotaConfig a "m" 0
          + (1/10) * min (((0 : ℚ) - (a.lastUsed : ℚ)) / 60000) 60) :=
  c3_hybrid_selection [sampleAccount] "m" [] [] 0 (by decide)

end Proxy